import Mathlib

/-!
Shallow embedding of the core state machine of the systemctl-tui repository
(src/app.rs and src/components/home.rs): the UI core state (`Home`), its
action dispatch function, the stateful list used for unit selection, the
render-debounce coalescer, the service-action effect sequence and the
log-tail supervisor loop. Pure functions mirror the Rust source; effectful
operations (channel sends, task spawns/aborts, sleeps) are made explicit as
returned effect lists.
-/

namespace Stui

/-- Modelled from the spec: the interaction modes of the UI core state machine
(src/components/home.rs, enum Mode). -/
inductive Mode where
  | Normal
  | Search
  | Help
  | ActionMenu
  | Processing
  | Error
deriving DecidableEq, Repr

/-- Modelled from the spec: a unit record is external-collaborator-owned data
(name, description, load/active/sub state, path); only `name` is used as an
identity key and the short name is used for filtering. The repository file
defining `UnitStatus` and `short_name` (systemd.rs) is not under src/, so the
short name is carried as an opaque data field rather than computed. -/
structure UnitStatus where
  name : String
  short_name : String
  description : String
  load_state : String
  active_state : String
  sub_state : String
  path : String
deriving DecidableEq, Repr

/-- The closed tagged union of every event the system reacts to. The variants
are exactly those consumed in src/app.rs (App::run) and src/components/home.rs
(Home::dispatch); payload types follow their uses there. -/
inductive Action where
  | Render
  | DebouncedRender
  | Noop
  | Quit
  | Suspend
  | Resume
  | Resize (w h : Nat)
  | EnterMode (m : Mode)
  | EnterError (err : String)
  | ToggleHelp
  | ToggleShowLogger
  | SetLogs (unit_name : String) (logs : List String)
  | AppendLogLine (unit_name : String) (line : String)
  | ScrollUp (n : Nat)
  | ScrollDown (n : Nat)
  | ScrollToTop
  | ScrollToBottom
  | StartService (name : String)
  | StopService (name : String)
  | RestartService (name : String)
  | RefreshServices
  | SetServices (units : List UnitStatus)
  | SpinnerTick
  | CancelTask
deriving DecidableEq, Repr

/-- Menu entry of the action menu (src/components/home.rs, struct MenuItem). -/
structure MenuItem where
  name : String
  action : Action
deriving DecidableEq, Repr

/-- A list with a selection cursor (src/components/home.rs, struct
StatefulList). The ratatui ListState is represented by its selected index. -/
structure StatefulList (α : Type) where
  state : Option Nat
  items : List α
deriving DecidableEq, Repr

/-- StatefulList::with_items — fresh list with no selection. -/
def StatefulList.with_items {α : Type} (items : List α) : StatefulList α :=
  ⟨none, items⟩

/-- StatefulList::selected. In the source the selected index is read with
`self.items[i]`, which requires `i < items.len()` (an out-of-range index is a
Rust panic); the model returns the element when in range and `none` otherwise,
and theorems that quantify over arbitrary states carry an index-validity
hypothesis where the distinction matters. -/
def StatefulList.selected {α : Type} (l : StatefulList α) : Option α :=
  if l.items.isEmpty then none
  else
    match l.state with
    | some i => l.items.get? i
    | none => none

/-- StatefulList::next — wraps from the last index (saturating_sub on the
length) back to 0; with no selection it selects 0. -/
def StatefulList.next {α : Type} (l : StatefulList α) : StatefulList α :=
  let i :=
    match l.state with
    | some i => if i ≥ l.items.length - 1 then 0 else i + 1
    | none => 0
  { l with state := some i }

/-- StatefulList::previous — wraps from index 0 to length − 1; with no
selection it selects 0. -/
def StatefulList.previous {α : Type} (l : StatefulList α) : StatefulList α :=
  let i :=
    match l.state with
    | some i => if i = 0 then l.items.length - 1 else i - 1
    | none => 0
  { l with state := some i }

/-- StatefulList::select. -/
def StatefulList.select {α : Type} (l : StatefulList α) (index : Option Nat) :
    StatefulList α :=
  { l with state := index }

/-- StatefulList::unselect. -/
def StatefulList.unselect {α : Type} (l : StatefulList α) : StatefulList α :=
  { l with state := none }

/-- Whether `needle` is a leading segment of `hay` (character lists). -/
def listHasPre : List Char → List Char → Bool
  | [], _ => true
  | _ :: _, [] => false
  | a :: as, b :: bs => a == b && listHasPre as bs

/-- Whether `needle` occurs contiguously anywhere inside `hay`. -/
def listHasSub (needle : List Char) : List Char → Bool
  | [] => needle.isEmpty
  | b :: bs => listHasPre needle (b :: bs) || listHasSub needle bs

/-- Rust str::contains specialised to literal substrings, as used by the unit
filter in Home::filter_statuses. -/
def strContains (hay needle : String) : Bool :=
  listHasSub needle.toList hay.toList

/-- Rust Iterator::position — index of the first element satisfying `p`. -/
def listPos {α : Type} (p : α → Bool) : List α → Option Nat
  | [] => none
  | a :: as => if p a then some 0 else (listPos p as).map (· + 1)

/-- The UI core state (src/components/home.rs, struct Home). The channel
handles (action_tx, journalctl_tx) are not state in the model: sends on them
are returned as explicit effect lists by the operations that perform them.
The logger pane widget holds no core state and is omitted. The u8 counter
`spinner_tick` and the u16 offset `logs_scroll_offset` are Nat with explicit
mod/saturation where the source wraps or saturates. -/
structure Home where
  show_logger : Bool
  all_units : List UnitStatus
  filtered_units : StatefulList UnitStatus
  logs : List String
  logs_scroll_offset : Nat
  mode : Mode
  input : String
  menu_items : StatefulList MenuItem
  cancel_token : Option Unit
  spinner_tick : Nat
  error_message : String
deriving DecidableEq, Repr

/-- Home::new — Default::default() for every field. -/
def Home.new : Home :=
  { show_logger := false
    all_units := []
    filtered_units := StatefulList.with_items []
    logs := []
    logs_scroll_offset := 0
    mode := Mode.Normal
    input := ""
    menu_items := StatefulList.with_items []
    cancel_token := none
    spinner_tick := 0
    error_message := "" }

/-- Index-validity of the selection cursor: whenever an index is selected it is
within the filtered list, so the source's `self.items[i]` cannot panic and the
model's `get?` agrees with it. -/
def Home.selWF (h : Home) : Bool :=
  match h.filtered_units.state with
  | some i => decide (i < h.filtered_units.items.length)
  | none => true

/-- Home::selected_service. -/
def Home.selected_service (h : Home) : Option String :=
  (h.filtered_units.selected).map (fun u => u.name)

/-- Home::get_logs — if a unit is selected, send its name to the journalctl
worker (the returned list holds the names sent); otherwise clear the log
buffer. -/
def Home.get_logs (h : Home) : Home × List String :=
  match h.filtered_units.selected with
  | some selected => (h, [selected.name])
  | none => ({ h with logs := [] }, [])

/-- Home::select — optionally clear the log buffer, move the cursor, and when
refreshing request logs for the new selection and reset the scroll offset. -/
def Home.select (h : Home) (index : Option Nat) (refresh_logs : Bool) :
    Home × List String :=
  let h1 := if refresh_logs then { h with logs := [] } else h
  let h2 := { h1 with filtered_units := h1.filtered_units.select index }
  if refresh_logs then
    let r := h2.get_logs
    ({ r.1 with logs_scroll_offset := 0 }, r.2)
  else (h2, [])

/-- Home::unselect. -/
def Home.unselect (h : Home) : Home :=
  { h with logs := [], filtered_units := h.filtered_units.unselect }

/-- Home::filter_statuses — rebuild the filtered list by case-insensitive
substring match of the search input against each unit's short name, then
restore the previous selection by name if possible, else select the first
filtered item, else select none. -/
def Home.filter_statuses (h : Home) (previously_selected : Option String) :
    Home × List String :=
  let search_value_lower := h.input.toLower
  let matching :=
    h.all_units.filter (fun u => strContains u.short_name.toLower search_value_lower)
  let h1 := { h with filtered_units := StatefulList.with_items matching }
  match previously_selected with
  | some prev =>
    match listPos (fun u => u.name == prev) h1.filtered_units.items with
    | some index => h1.select (some index) false
    | none => h1.select (some 0) true
  | none =>
    if h1.filtered_units.items.length > 0 then h1.select (some 0) true
    else (h1.unselect, [])

/-- Home::set_units — remember the selected unit's name, replace the full unit
set, and re-filter. -/
def Home.set_units (h : Home) (units : List UnitStatus) : Home × List String :=
  let previously_selected := h.selected_service
  Home.filter_statuses { h with all_units := units } previously_selected

/-- Result of one call to Home::dispatch: the updated state, the optional
follow-up action returned to the dispatch loop, and the unit names sent to the
journalctl worker while handling the action (via get_logs inside set_units). -/
structure DispatchResult where
  state : Home
  followUp : Option Action
  logRequests : List String
deriving Repr

/-- Home::dispatch (src/components/home.rs). Service actions store a fresh
live cancellation token; the background effects they spawn are modelled
separately by serviceActionEffects. RefreshServices spawns an external unit
listing whose completion arrives later as SetServices, so it changes no state
here. The u16 scroll offset saturates at 65535 on ScrollDown and the cast
`logs.len() as u16` in ScrollToBottom is length mod 2^16; the u8 spinner
counter wraps mod 2^8. -/
def Home.dispatch (h : Home) (a : Action) : DispatchResult :=
  match a with
  | .ToggleShowLogger =>
    ⟨{ h with show_logger := !h.show_logger }, some .Render, []⟩
  | .EnterMode m =>
    if m = Mode.ActionMenu then
      match h.filtered_units.selected with
      | none => ⟨h, none, []⟩
      | some s =>
        let menu_items :=
          [MenuItem.mk "Start" (.StartService s.name),
           MenuItem.mk "Stop" (.StopService s.name),
           MenuItem.mk "Restart" (.RestartService s.name)]
        ⟨{ h with
            menu_items := { state := some 0, items := menu_items }
            mode := m },
          some .Render, []⟩
    else ⟨{ h with mode := m }, some .Render, []⟩
  | .EnterError err =>
    ⟨{ h with error_message := err }, some (.EnterMode Mode.Error), []⟩
  | .ToggleHelp =>
    if h.mode ≠ Mode.Help then ⟨{ h with mode := Mode.Help }, none, []⟩
    else ⟨{ h with mode := Mode.Normal }, none, []⟩
  | .SetLogs service_name logs =>
    match h.filtered_units.selected with
    | some selected =>
      if selected.name = service_name then ⟨{ h with logs := logs }, none, []⟩
      else ⟨h, none, []⟩
    | none => ⟨h, none, []⟩
  | .AppendLogLine unit_name line =>
    match h.filtered_units.selected with
    | some selected =>
      if selected.name = unit_name then
        ⟨{ h with logs := h.logs ++ [line] }, none, []⟩
      else ⟨h, none, []⟩
    | none => ⟨h, none, []⟩
  | .ScrollUp offset =>
    ⟨{ h with logs_scroll_offset := h.logs_scroll_offset - offset }, none, []⟩
  | .ScrollDown offset =>
    ⟨{ h with logs_scroll_offset := min (h.logs_scroll_offset + offset) 65535 },
      none, []⟩
  | .ScrollToTop =>
    ⟨{ h with logs_scroll_offset := 0 }, none, []⟩
  | .ScrollToBottom =>
    ⟨{ h with logs_scroll_offset := h.logs.length % 65536 }, none, []⟩
  | .StartService _ => ⟨{ h with cancel_token := some () }, none, []⟩
  | .StopService _ => ⟨{ h with cancel_token := some () }, none, []⟩
  | .RestartService _ => ⟨{ h with cancel_token := some () }, none, []⟩
  | .RefreshServices => ⟨h, none, []⟩
  | .SetServices units =>
    let r := h.set_units units
    ⟨r.1, some .Render, r.2⟩
  | .SpinnerTick =>
    ⟨{ h with spinner_tick := (h.spinner_tick + 1) % 256 }, some .Render, []⟩
  | .CancelTask =>
    ⟨{ h with cancel_token := none, mode := Mode.Normal }, some .Render, []⟩
  | _ => ⟨h, none, []⟩

/-- The spinner frames rendered in Processing mode (src/components/home.rs,
SPINNER_CHARS in Home::render). -/
def SPINNER_CHARS : List Char := ['⣷', '⣯', '⣟', '⡿', '⢿', '⣻', '⣽', '⣾']

/-- The frame index the render path displays:
SPINNER_CHARS[spinner_tick as usize % SPINNER_CHARS.len()]. -/
def Home.spinnerFrameIndex (h : Home) : Nat :=
  h.spinner_tick % SPINNER_CHARS.length

/-- One observable step of the background tasks spawned by
Home::service_action: a channel send, a timed sleep, aborting the spinner
ticker task, or a tracing call (info/warn/error). -/
inductive Effect where
  | send (a : Action)
  | sleepSecs (n : Nat)
  | abortTicker
  | logInfo (msg : String)
  | logWarn (msg : String)
  | logError (msg : String)
deriving DecidableEq, Repr

/-- The error message shown on a failed service action, with the sudo hint
appended when the failure mentions AccessDenied
(src/components/home.rs, Home::service_action). -/
def errorString (e : String) : String :=
  if strContains e "AccessDenied" then
    e ++ "\n" ++ "\n" ++ "Try running this tool with sudo."
  else e

/-- The post-outcome cadence of Home::service_action: abort the spinner
ticker, one immediate unit-list refresh, then three more refreshes spaced one
second apart. -/
def refreshTail : List Effect :=
  [Effect.abortTicker,
   Effect.send .RefreshServices,
   Effect.sleepSecs 1, Effect.send .RefreshServices,
   Effect.sleepSecs 1, Effect.send .RefreshServices,
   Effect.sleepSecs 1, Effect.send .RefreshServices]

/-- The ordered effects of the completion task spawned by
Home::service_action, as a function of the operation outcome and of whether
the cancellation token had been cancelled when the failure was observed
(`cancel_token.is_cancelled()` at the match). -/
def serviceActionEffects (action_name service_name : String)
    (result : Except String Unit) (cancelled : Bool) : List Effect :=
  Effect.send (.EnterMode Mode.Processing) ::
    ((match result with
      | .ok _ =>
        [Effect.logInfo (action_name ++ " of service " ++ service_name ++ " succeeded"),
         Effect.send (.EnterMode Mode.Normal)]
      | .error e =>
        if cancelled then
          [Effect.logWarn (action_name ++ " of service " ++ service_name ++ " was cancelled")]
        else
          [Effect.logError (action_name ++ " of service " ++ service_name ++ " failed: " ++ e),
           Effect.send (.EnterError (errorString e))]) ++
     refreshTail)

/-- Events seen by the debounce loop in src/app.rs (App::run): a message on
the debounce channel, or the expiry of the timer the loop started. All
requests of a burst arriving within less than the debounce delay of the first
are modelled as preceding that first request's timer expiry in the trace. -/
inductive DebEvent where
  | request
  | timerFire
deriving DecidableEq, Repr

/-- Observable effects of the debounce loop: spawning the sleep-then-render
task, and the Action::Render it sends on expiry. -/
inductive DebEffect where
  | startTimer
  | sendAction (a : Action)
deriving DecidableEq, Repr

/-- One step of the debounce loop in src/app.rs: a request is dropped while
`debouncing` is set, otherwise it sets the flag and starts the timer task;
the timer task on expiry sends Action::Render and clears the flag. -/
def debounceStep (debouncing : Bool) (e : DebEvent) : Bool × List DebEffect :=
  match e with
  | .request =>
    if debouncing then (debouncing, [])
    else (true, [DebEffect.startTimer])
  | .timerFire => (false, [DebEffect.sendAction .Render])

/-- The debounce loop run over a sequence of events, accumulating effects in
order. -/
def debounceRun (debouncing : Bool) : List DebEvent → Bool × List DebEffect
  | [] => (debouncing, [])
  | e :: rest =>
    let r1 := debounceStep debouncing e
    let r2 := debounceRun r1.1 rest
    (r2.1, r1.2 ++ r2.2)

/-- State of the journalctl worker loop spawned in Home::init: a counter for
fresh follow-task identities, the set of follow tasks spawned and not yet
aborted, and the stored handle of the last spawned follow task
(`last_follow_handle`). -/
structure SupervisorState where
  nextId : Nat
  active : List Nat
  lastFollowHandle : Option Nat
deriving DecidableEq, Repr

/-- The external inputs consumed by one iteration of the journalctl worker
loop: the request received blockingly, the requests drained with try_recv
while busy, the outcome of the batch `journalctl --lines=500` invocation
(its stdout, or an error), and the lines the spawned follow task will read
from `journalctl -f` before it is superseded. -/
structure LogIter where
  firstUnit : String
  pending : List String
  fetchResult : Except String String
  streamLines : List String
deriving Repr

/-- Observable effects of one iteration of the journalctl worker loop. -/
inductive SupEffect where
  | logInfo (msg : String)
  | logWarn (msg : String)
  | abortTask (id : Nat)
  | runBatchFetch (unit : String) (maxLines : Nat)
  | sendAction (a : Action)
  | spawnFollow (id : Nat) (unit : String)
deriving DecidableEq, Repr

/-- The drain loop at the head of each worker iteration: while try_recv
succeeds, log a skip message for the unit about to be superseded and replace
it. Returns the unit finally kept and the skip messages in order. -/
def drainAll (first : String) : List String → String × List String
  | [] => (first, [])
  | s :: rest =>
    let r := drainAll s rest
    (r.1, ("Skipping logs for " ++ first ++ "...") :: r.2)

/-- One iteration of the journalctl worker loop in Home::init: drain the
channel keeping the last request, abort the previous follow task if any,
run the bounded batch fetch (500 lines) and on success send SetLogs for the
kept unit followed by Render (on failure only a warning is traced), then
spawn exactly one fresh follow task for that unit and store its handle. -/
def superviseStep (st : SupervisorState) (it : LogIter) :
    SupervisorState × List SupEffect :=
  let drained := drainAll it.firstUnit it.pending
  let unit_name := drained.1
  let abortEffs : List SupEffect :=
    match st.lastFollowHandle with
    | some h => [SupEffect.logInfo "Cancelling previous journalctl task",
                 SupEffect.abortTask h]
    | none => []
  let activeAfterAbort :=
    match st.lastFollowHandle with
    | some h => st.active.filter (fun x => x != h)
    | none => st.active
  let batchEffs : List SupEffect :=
    SupEffect.runBatchFetch unit_name 500 ::
      (match it.fetchResult with
       | .ok stdout =>
         [SupEffect.sendAction (.SetLogs unit_name (stdout.splitOn "\n")),
          SupEffect.sendAction .Render]
       | .error e =>
         [SupEffect.logWarn ("Error getting logs for " ++ unit_name ++ ": " ++ e)])
  let newId := st.nextId
  (⟨newId + 1, activeAfterAbort ++ [newId], some newId⟩,
   drained.2.map SupEffect.logInfo ++ abortEffs ++ batchEffs ++
     [SupEffect.spawnFollow newId unit_name])

/-- The actions sent by a follow task for `unit`, one AppendLogLine plus one
Render per line read from the streaming journalctl process. -/
def followTaskActions (unit : String) (lines : List String) : List Action :=
  lines.foldr (fun l acc => Action.AppendLogLine unit l :: Action.Render :: acc) []

/-- C1 as a predicate: log updates tagged with a unit other than the selected
one (or arriving with no selection) leave the buffer unchanged; updates for
the selected unit replace (SetLogs) or append to (AppendLogLine) it. -/
def c1Spec (s : Home) (x : String) (lgs : List String) (line : String) : Prop :=
  (s.selected_service ≠ some x →
    (s.dispatch (.SetLogs x lgs)).state.logs = s.logs ∧
    (s.dispatch (.AppendLogLine x line)).state.logs = s.logs) ∧
  (s.selected_service = some x →
    (s.dispatch (.SetLogs x lgs)).state.logs = lgs ∧
    (s.dispatch (.AppendLogLine x line)).state.logs = s.logs ++ [line])

/-- C1: for every state with a valid selection cursor and every unit name X,
SetLogs and AppendLogLine for X change the Log Buffer only when X is the name
of the currently selected unit; a mismatching or absent selection leaves the
buffer untouched, a matching one replaces respectively appends. -/
theorem c1_stale_log_updates_discarded (s : Home) (x : String)
    (lgs : List String) (line : String) (_hWF : s.selWF = true) :
    c1Spec s x lgs line := by
  unfold c1Spec
  cases hsel : s.filtered_units.selected with
  | none =>
    constructor
    · intro _
      constructor <;> simp [Home.dispatch, hsel]
    · intro hx
      simp [Home.selected_service, hsel] at hx
  | some u =>
    by_cases hn : u.name = x
    · constructor
      · intro hne
        exact absurd (by simp [Home.selected_service, hsel, hn]) hne
      · intro _
        constructor <;> simp [Home.dispatch, hsel, hn]
    · constructor
      · intro _
        constructor <;> simp [Home.dispatch, hsel, hn]
      · intro hx
        simp [Home.selected_service, hsel] at hx
        exact absurd hx hn

/-- A sample unit used by concrete witnesses. -/
def unitA : UnitStatus :=
  ⟨"A.service", "A", "unit A", "loaded", "active", "running", "/a"⟩

/-- A second sample unit used by concrete witnesses. -/
def unitB : UnitStatus :=
  ⟨"B.service", "B", "unit B", "loaded", "active", "running", "/b"⟩

/-- A third sample unit used by concrete witnesses. -/
def unitC : UnitStatus :=
  ⟨"C.service", "C", "unit C", "loaded", "inactive", "dead", "/c"⟩

/-- A concrete state with units A and B where B is selected. -/
def homeAB : Home :=
  { Home.new with
      all_units := [unitA, unitB]
      filtered_units := ⟨some 1, [unitA, unitB]⟩
      logs := ["old line"] }

/-- Witness for C1 at a concrete state: B is selected, so updates for A leave
the buffer unchanged and updates for B apply. -/
theorem c1_witness : c1Spec homeAB "A.service" ["l1"] "l2" :=
  c1_stale_log_updates_discarded homeAB "A.service" ["l1"] "l2" (by decide)

/-- C3: a service-action failure observed with the cancellation token already
cancelled produces only an internal warn trace — in particular no EnterError
send — and dispatching CancelTask itself clears the live token and forces
Mode to Normal. -/
theorem c3_cancel_suppresses_error (action_name service_name e : String)
    (s : Home) :
    serviceActionEffects action_name service_name (.error e) true =
      Effect.send (.EnterMode Mode.Processing) ::
        Effect.logWarn
          (action_name ++ " of service " ++ service_name ++ " was cancelled") ::
        refreshTail ∧
    (∀ m, Effect.send (.EnterError m) ∉
        serviceActionEffects action_name service_name (.error e) true) ∧
    (s.dispatch .CancelTask).state.mode = Mode.Normal ∧
    (s.dispatch .CancelTask).state.cancel_token = none := by
  refine ⟨rfl, ?_, rfl, rfl⟩
  intro m hm
  simp [serviceActionEffects, refreshTail] at hm

/-- C6: for every service action and every outcome, the effect sequence ends
with the fixed refresh cadence — stop the ticker, one immediate
RefreshServices, then three more each after a one-second sleep (four refresh
sends in total) — and no refresh or ticker stop occurs before it. -/
theorem c6_post_action_refresh_cadence (action_name service_name : String)
    (result : Except String Unit) (cancelled : Bool) :
    ∃ pre,
      serviceActionEffects action_name service_name result cancelled =
        pre ++ refreshTail ∧
      Effect.abortTicker ∉ pre ∧
      Effect.send .RefreshServices ∉ pre ∧
      refreshTail.count (Effect.send .RefreshServices) = 4 ∧
      refreshTail =
        [Effect.abortTicker,
         Effect.send .RefreshServices,
         Effect.sleepSecs 1, Effect.send .RefreshServices,
         Effect.sleepSecs 1, Effect.send .RefreshServices,
         Effect.sleepSecs 1, Effect.send .RefreshServices] := by
  match result, cancelled with
  | .ok _, cancelled =>
    refine ⟨[Effect.send (.EnterMode Mode.Processing),
             Effect.logInfo (action_name ++ " of service " ++ service_name ++ " succeeded"),
             Effect.send (.EnterMode Mode.Normal)], rfl, ?_, ?_, by decide, rfl⟩ <;> simp
  | .error e, true =>
    refine ⟨[Effect.send (.EnterMode Mode.Processing),
             Effect.logWarn (action_name ++ " of service " ++ service_name ++ " was cancelled")],
            rfl, ?_, ?_, by decide, rfl⟩ <;> simp
  | .error e, false =>
    refine ⟨[Effect.send (.EnterMode Mode.Processing),
             Effect.logError (action_name ++ " of service " ++ service_name ++ " failed: " ++ e),
             Effect.send (.EnterError (errorString e))],
            rfl, ?_, ?_, by decide, rfl⟩ <;> simp

/-- A concrete state whose spinner counter is 7, one below the frame count. -/
def homeSpin7 : Home := { Home.new with spinner_tick := 7 }

/-- C7 fails as stated: with the counter at 7, SpinnerTick yields 8, whereas
(7 + 1) mod frameCount would be 0 — the counter is a u8 advanced with
wrapping_add(1), i.e. modulo 256, not modulo the frame count. -/
theorem c7_counterexample :
    ¬ ((homeSpin7.dispatch .SpinnerTick).state.spinner_tick =
        (homeSpin7.spinner_tick + 1) % SPINNER_CHARS.length) := by
  decide

/-- C7 amended: SpinnerTick advances the counter by one modulo 256 (u8 wrap),
and the frame index actually rendered — counter mod frameCount — advances by
one modulo the number of spinner frames. -/
theorem c7_amended_spinner_advance (s : Home) :
    (s.dispatch .SpinnerTick).state.spinner_tick = (s.spinner_tick + 1) % 256 ∧
    (s.dispatch .SpinnerTick).state.spinnerFrameIndex =
      (s.spinnerFrameIndex + 1) % SPINNER_CHARS.length := by
  refine ⟨rfl, ?_⟩
  have h8 : SPINNER_CHARS.length = 8 := rfl
  have hd : (s.dispatch .SpinnerTick).state.spinner_tick
      = (s.spinner_tick + 1) % 256 := rfl
  unfold Home.spinnerFrameIndex
  rw [hd, h8]
  omega

/-- A concrete state whose log buffer holds 65536 lines. -/
def homeBigLogs : Home := { Home.new with logs := List.replicate 65536 "" }

/-- Dispatching ScrollToBottom stores the buffer length reduced modulo 2^16
(the `as u16` cast in the source). -/
lemma scrollToBottom_offset (s : Home) :
    (s.dispatch .ScrollToBottom).state.logs_scroll_offset =
      s.logs.length % 65536 := rfl

/-- The big concrete state indeed buffers 65536 lines. -/
lemma homeBigLogs_logs : homeBigLogs.logs = List.replicate 65536 "" := rfl

/-- C8 fails as stated: with 65536 buffered lines, ScrollToBottom sets the
offset to 0, not to the line count — the length is cast to u16, i.e. reduced
modulo 2^16. -/
theorem c8_counterexample :
    ¬ ((homeBigLogs.dispatch .ScrollToBottom).state.logs_scroll_offset =
        homeBigLogs.logs.length) := by
  rw [scrollToBottom_offset, homeBigLogs_logs, List.length_replicate]
  norm_num

/-- C8 amended: ScrollToBottom sets the scroll offset to the line count
reduced modulo 2^16 (the u16 cast), which equals the line count whenever the
buffer holds fewer than 65536 lines. -/
theorem c8_amended_scroll_to_bottom (s : Home) :
    (s.dispatch .ScrollToBottom).state.logs_scroll_offset =
      s.logs.length % 65536 ∧
    (s.logs.length < 65536 →
      (s.dispatch .ScrollToBottom).state.logs_scroll_offset = s.logs.length) := by
  refine ⟨scrollToBottom_offset s, fun hlen => ?_⟩
  rw [scrollToBottom_offset s]
  exact Nat.mod_eq_of_lt hlen

/-- A concrete state with a two-line log buffer. -/
def homeTwoLogs : Home := { Home.new with logs := ["a", "b"] }

/-- Witness for the amended C8 at a concrete state below the u16 bound. -/
theorem c8_amended_witness :
    (homeTwoLogs.dispatch .ScrollToBottom).state.logs_scroll_offset =
      homeTwoLogs.logs.length :=
  (c8_amended_scroll_to_bottom homeTwoLogs).2 (by decide)

/-- C10 as a predicate: next from the last index wraps to 0, previous from 0
wraps to the last index, and from no selection both select index 0. -/
def c10Spec (α : Type) (l : StatefulList α) : Prop :=
  (l.state = some (l.items.length - 1) → l.next.state = some 0) ∧
  (l.state = some 0 → l.previous.state = some (l.items.length - 1)) ∧
  (l.state = none → l.next.state = some 0 ∧ l.previous.state = some 0)

/-- C10: on a non-empty list the navigation cursor wraps around in both
directions, and with no selection next and previous both select the first
index. -/
theorem c10_navigation_wraparound (α : Type) (l : StatefulList α)
    (_hne : l.items ≠ []) : c10Spec α l := by
  refine ⟨?_, ?_, ?_⟩
  · intro h
    simp [StatefulList.next, h]
  · intro h
    simp [StatefulList.previous, h]
  · intro h
    constructor <;> simp [StatefulList.next, StatefulList.previous, h]

/-- Witness for C10 on a concrete three-element list with the last index
selected. -/
theorem c10_witness : c10Spec Nat ⟨some 2, [10, 20, 30]⟩ :=
  c10_navigation_wraparound Nat ⟨some 2, [10, 20, 30]⟩ (by decide)

/-- Running the debounce loop on further requests while the flag is set drops
them all: no timer is started and no action sent. -/
lemma debounceRun_true_requests (m : Nat) :
    debounceRun true (List.replicate m DebEvent.request) = (true, []) := by
  induction m with
  | zero => rfl
  | succ k ih => simp [List.replicate_succ, debounceRun, debounceStep, ih]

/-- Effects of a run distribute over trace concatenation. -/
lemma debounceRun_append (b : Bool) (xs ys : List DebEvent) :
    debounceRun b (xs ++ ys) =
      ((debounceRun (debounceRun b xs).1 ys).1,
       (debounceRun b xs).2 ++ (debounceRun (debounceRun b xs).1 ys).2) := by
  induction xs generalizing b with
  | nil => simp [debounceRun]
  | cons e rest ih => simp [debounceRun, ih]

/-- C4 as a predicate: a burst of n render requests followed by the expiry of
the single timer the first one started yields exactly one startTimer, exactly
one Render send, and leaves the flag cleared. -/
def c4Spec (n : Nat) : Prop :=
  (debounceRun false
      (List.replicate n DebEvent.request ++ [DebEvent.timerFire])).2 =
    [DebEffect.startTimer, DebEffect.sendAction .Render] ∧
  (debounceRun false
      (List.replicate n DebEvent.request ++ [DebEvent.timerFire])).1 = false ∧
  ((debounceRun false
      (List.replicate n DebEvent.request ++ [DebEvent.timerFire])).2.count
      (DebEffect.sendAction .Render) = 1) ∧
  ((debounceRun false
      (List.replicate n DebEvent.request ++ [DebEvent.timerFire])).2.count
      DebEffect.startTimer = 1)

/-- C4: for every burst of n ≥ 1 debounced-render requests arriving before the
timer started by the first one expires, the coalescer starts one timer,
drops the other requests while the flag is set, and emits exactly one Render
on expiry, clearing the flag. -/
theorem c4_debounce_coalesces (n : Nat) (hn : 1 ≤ n) : c4Spec n := by
  obtain ⟨m, rfl⟩ : ∃ m, n = m + 1 := ⟨n - 1, by omega⟩
  have key : debounceRun false
      (List.replicate (m + 1) DebEvent.request ++ [DebEvent.timerFire]) =
      (false, [DebEffect.startTimer, DebEffect.sendAction .Render]) := by
    simp [List.replicate_succ, debounceRun, debounceStep, debounceRun_append,
      debounceRun_true_requests]
  unfold c4Spec
  rw [key]
  refine ⟨rfl, rfl, by decide, by decide⟩

/-- Witness for C4 at a burst of three requests. -/
theorem c4_witness : c4Spec 3 := c4_debounce_coalesces 3 (by decide)

/-- When listPos finds an index, the element there satisfies the predicate. -/
lemma listPos_some {α : Type} (p : α → Bool) (l : List α) (i : Nat)
    (h : listPos p l = some i) : ∃ a, l.get? i = some a ∧ p a = true := by
  induction l generalizing i with
  | nil => simp [listPos] at h
  | cons a as ih =>
    by_cases hp : p a = true
    · simp [listPos, hp] at h
      subst h
      exact ⟨a, rfl, hp⟩
    · simp [listPos, hp] at h
      cases hmap : listPos p as with
      | none => rw [hmap] at h; simp at h
      | some j =>
        rw [hmap] at h
        simp at h
        obtain ⟨b, hb, hpb⟩ := ih j hmap
        subst h
        exact ⟨b, by simpa [List.get?_cons_succ] using hb, hpb⟩

/-- When listPos finds nothing, no element satisfies the predicate. -/
lemma listPos_none {α : Type} (p : α → Bool) (l : List α)
    (h : listPos p l = none) : ∀ a ∈ l, p a = false := by
  induction l with
  | nil => intro a ha; simp at ha
  | cons a as ih =>
    by_cases hp : p a = true
    · simp [listPos, hp] at h
    · intro b hb
      rcases List.mem_cons.mp hb with rfl | hmem
      · simpa using hp
      · refine ih ?_ b hmem
        simp [listPos, hp] at h
        cases hmap : listPos p as with
        | none => rfl
        | some j => rw [hmap] at h; simp at h

/-- listPos over the unit-name match fails exactly when the name is absent
from the projected name list. -/
lemma listPos_name_none_iff (l : List UnitStatus) (p : String) :
    listPos (fun u => u.name == p) l = none ↔
      p ∉ l.map (fun u => u.name) := by
  constructor
  · intro h hmem
    obtain ⟨u, hu, hname⟩ := List.mem_map.mp hmem
    have := listPos_none _ _ h u hu
    rw [hname] at this
    simp at this
  · intro hmem
    cases hpos : listPos (fun u => u.name == p) l with
    | none => rfl
    | some i =>
      obtain ⟨u, hget, hpu⟩ := listPos_some _ _ _ hpos
      have hu : u ∈ l := List.get?_mem hget
      have : u.name = p := by simpa using hpu
      exact absurd (List.mem_map.mpr ⟨u, hu, this⟩) hmem

/-- The unit list produced by the search filter: case-insensitive substring
match of the search input against each unit's short name
(Home::filter_statuses). -/
def matchingUnits (units : List UnitStatus) (searchValue : String) :
    List UnitStatus :=
  units.filter (fun u => strContains u.short_name.toLower searchValue.toLower)

/-- Outcome of re-filtering when the previous selection is gone: logs are
cleared, the first filtered item (when any) is selected and its logs are
requested, and the scroll offset is reset. -/
def selectFirstOutcome (h : Home) (matching : List UnitStatus) :
    Home × List String :=
  ({ h with
      logs := []
      filtered_units := ⟨some 0, matching⟩
      logs_scroll_offset := 0 },
   ((matching.head?).map (fun u => u.name)).toList)

/-- Expected outcome of Home::filter_statuses on a given filter result,
written out case by case. -/
def filterStatusesOutcome (h : Home) (matching : List UnitStatus)
    (prev : Option String) : Home × List String :=
  match prev with
  | some p =>
    match listPos (fun u => u.name == p) matching with
    | some index =>
      ({ h with filtered_units := ⟨some index, matching⟩ }, ([] : List String))
    | none => selectFirstOutcome h matching
  | none =>
    if matching.length > 0 then selectFirstOutcome h matching
    else
      ({ h with
          logs := []
          filtered_units := ⟨none, matching⟩ },
       ([] : List String))

/-- Full characterization of Home::filter_statuses: the filtered list is
rebuilt from the search filter; a still-present previous selection is
restored by index without touching logs, a vanished or absent one selects
the first filtered item (clearing the logs, resetting the scroll offset and
requesting logs for it when it exists), and an empty filter result leaves
nothing selected. -/
lemma filter_statuses_char (h : Home) (prev : Option String) :
    h.filter_statuses prev =
      filterStatusesOutcome h (matchingUnits h.all_units h.input) prev := by
  unfold filterStatusesOutcome selectFirstOutcome
  unfold Home.filter_statuses Home.select Home.get_logs Home.unselect
    matchingUnits StatefulList.with_items StatefulList.select
    StatefulList.unselect StatefulList.selected
  cases prev with
  | some p =>
    cases hpos : listPos (fun u => u.name == p)
        (h.all_units.filter
          (fun u => strContains u.short_name.toLower h.input.toLower)) with
    | some index => simp [hpos]
    | none =>
      cases hm : h.all_units.filter
          (fun u => strContains u.short_name.toLower h.input.toLower) with
      | nil => simp [hpos, hm]
      | cons u rest => simp [hpos, hm]
  | none =>
    cases hm : h.all_units.filter
        (fun u => strContains u.short_name.toLower h.input.toLower) with
    | nil => simp [hm]
    | cons u rest => simp [hm]

/-- Selecting index 0 selects the head of the item list (or nothing when it is
empty). -/
lemma selected_zero (m : List UnitStatus) :
    (StatefulList.mk (some 0) m : StatefulList UnitStatus).selected = m.head? := by
  cases m <;> simp [StatefulList.selected]

/-- A valid found index yields that element as the selection. -/
lemma selected_at_index (m : List UnitStatus) (i : Nat) (u : UnitStatus)
    (hget : m.get? i = some u) :
    (StatefulList.mk (some i) m : StatefulList UnitStatus).selected = some u := by
  cases m with
  | nil => simp at hget
  | cons a rest => exact hget

/-- C5 as a predicate: SetServices replaces the unit set, re-applies the
current search filter, keeps the previously selected unit if its name
survived the new filter, otherwise selects the first filtered item, otherwise
selects none; a render follow-up is returned. -/
def c5Spec (s : Home) (units : List UnitStatus) : Prop :=
  (s.dispatch (.SetServices units)).state.all_units = units ∧
  (s.dispatch (.SetServices units)).state.filtered_units.items =
    matchingUnits units s.input ∧
  (s.dispatch (.SetServices units)).state.selected_service =
    (match s.selected_service with
     | some prev =>
       if prev ∈ (matchingUnits units s.input).map (fun u => u.name) then
         some prev
       else ((matchingUnits units s.input).head?).map (fun u => u.name)
     | none => ((matchingUnits units s.input).head?).map (fun u => u.name)) ∧
  (s.dispatch (.SetServices units)).followUp = some Action.Render

/-- C5: dispatching SetServices replaces the full unit set, re-filters it
with the current case-insensitive substring search, and preserves the
selection by name when possible, else selects the first filtered item, else
none. -/
theorem c5_set_services_selection (s : Home) (units : List UnitStatus)
    (_hWF : s.selWF = true) : c5Spec s units := by
  have key := filter_statuses_char { s with all_units := units } s.selected_service
  have harg : matchingUnits ({ s with all_units := units } : Home).all_units
      ({ s with all_units := units } : Home).input = matchingUnits units s.input := rfl
  rw [harg] at key
  have h1 : (s.dispatch (.SetServices units)).state =
      (Home.filter_statuses { s with all_units := units } s.selected_service).1 := rfl
  have h4 : (s.dispatch (.SetServices units)).followUp = some Action.Render := rfl
  unfold c5Spec
  rw [h1, h4, key]
  cases hs : s.selected_service with
  | none =>
    by_cases hlen : (matchingUnits units s.input).length > 0
    · obtain ⟨u, rest, hm⟩ : ∃ u rest, matchingUnits units s.input = u :: rest := by
        cases hmm : matchingUnits units s.input with
        | nil => rw [hmm] at hlen; simp at hlen
        | cons u rest => exact ⟨u, rest, rfl⟩
      refine ⟨?_, ?_, ?_, rfl⟩ <;>
        simp [filterStatusesOutcome, selectFirstOutcome, hlen,
          Home.selected_service, hm, StatefulList.selected]
    · have hm : matchingUnits units s.input = [] := by
        cases hmm : matchingUnits units s.input with
        | nil => rfl
        | cons u rest => rw [hmm] at hlen; simp at hlen
      refine ⟨?_, ?_, ?_, rfl⟩ <;>
        simp [filterStatusesOutcome, hlen, Home.selected_service, hm,
          StatefulList.selected]
  | some p =>
    cases hpos : listPos (fun u => u.name == p) (matchingUnits units s.input) with
    | some index =>
      obtain ⟨u, hget, hpu⟩ := listPos_some _ _ _ hpos
      have hname : u.name = p := by simpa using hpu
      have hmem : p ∈ (matchingUnits units s.input).map (fun u => u.name) :=
        List.mem_map.mpr ⟨u, List.get?_mem hget, hname⟩
      have hout : filterStatusesOutcome { s with all_units := units }
          (matchingUnits units s.input) (some p) =
          ({ s with
              all_units := units
              filtered_units := ⟨some index, matchingUnits units s.input⟩ },
           ([] : List String)) := by
        simp only [filterStatusesOutcome, hpos]
      rw [hout]
      refine ⟨rfl, rfl, ?_, rfl⟩
      have hsel : ({ s with
          all_units := units
          filtered_units := ⟨some index, matchingUnits units s.input⟩ } :
            Home).selected_service = some p := by
        show ((StatefulList.mk (some index) (matchingUnits units s.input) :
            StatefulList UnitStatus).selected).map (fun u => u.name) = some p
        rw [selected_at_index _ _ _ hget]
        simp [hname]
      rw [hsel]
      simp [hmem]
    | none =>
      have hmem : p ∉ (matchingUnits units s.input).map (fun u => u.name) :=
        (listPos_name_none_iff _ _).mp hpos
      have hout : filterStatusesOutcome { s with all_units := units }
          (matchingUnits units s.input) (some p) =
          selectFirstOutcome { s with all_units := units }
            (matchingUnits units s.input) := by
        simp only [filterStatusesOutcome, hpos]
      rw [hout]
      refine ⟨rfl, rfl, ?_, rfl⟩
      have hsel : (selectFirstOutcome { s with all_units := units }
          (matchingUnits units s.input)).1.selected_service =
          ((matchingUnits units s.input).head?).map (fun u => u.name) := by
        show ((StatefulList.mk (some 0) (matchingUnits units s.input) :
            StatefulList UnitStatus).selected).map (fun u => u.name) = _
        rw [selected_zero]
      rw [hsel]
      simp [hmem]

/-- Concrete P5 scenario: units A, B, C with B selected. -/
def homeABC : Home :=
  { Home.new with
      all_units := [unitA, unitB, unitC]
      filtered_units := ⟨some 1, [unitA, unitB, unitC]⟩ }

/-- A fourth sample unit used by concrete witnesses. -/
def unitD : UnitStatus :=
  ⟨"D.service", "D", "unit D", "loaded", "active", "running", "/d"⟩

/-- Witness for C5: with B selected, SetServices with A, B, C, D preserves
the selection of B. -/
theorem c5_witness : c5Spec homeABC [unitA, unitB, unitC, unitD] :=
  c5_set_services_selection homeABC [unitA, unitB, unitC, unitD] (by decide)

/-- C9 as a predicate over a re-filter with previous selection name u: if u
survives the filter, the log buffer, the scroll offset and the absence of a
log request are all preserved; if it does not, the buffer is cleared, the
offset reset, and a log request is issued exactly for the newly selected
first filtered unit (none when the filter result is empty). -/
def c9Spec (s : Home) (u : String) : Prop :=
  (u ∈ (matchingUnits s.all_units s.input).map (fun v => v.name) →
    (s.filter_statuses (some u)).1.logs = s.logs ∧
    (s.filter_statuses (some u)).1.logs_scroll_offset = s.logs_scroll_offset ∧
    (s.filter_statuses (some u)).2 = []) ∧
  (u ∉ (matchingUnits s.all_units s.input).map (fun v => v.name) →
    (s.filter_statuses (some u)).1.logs = [] ∧
    (s.filter_statuses (some u)).1.logs_scroll_offset = 0 ∧
    (s.filter_statuses (some u)).2 =
      (((matchingUnits s.all_units s.input).head?).map (fun v => v.name)).toList)

/-- C9: whenever the unit set is re-filtered (SetServices and search-input
changes both funnel into filter_statuses with the previously selected name),
a still-present selection leaves the Log Buffer and scroll offset unchanged
and issues no log request; the buffer is cleared and a new request issued
only when the previous selection is absent from the new filtered list. -/
theorem c9_refilter_preserves_logs (s : Home) (u : String) : c9Spec s u := by
  unfold c9Spec
  rw [filter_statuses_char]
  constructor
  · intro hmem
    cases hpos : listPos (fun v => v.name == u)
        (matchingUnits s.all_units s.input) with
    | none => exact absurd hmem ((listPos_name_none_iff _ _).mp hpos)
    | some index =>
      simp [filterStatusesOutcome, hpos]
  · intro hmem
    have hpos : listPos (fun v => v.name == u)
        (matchingUnits s.all_units s.input) = none :=
      (listPos_name_none_iff _ _).mpr hmem
    simp [filterStatusesOutcome, hpos, selectFirstOutcome]

/-- Witness for C9: re-filtering homeABC with selection B present keeps the
buffer and issues no request. -/
theorem c9_witness : c9Spec homeABC "B.service" :=
  c9_refilter_preserves_logs homeABC "B.service"

/-- Unfolding of the follow-task action stream on a cons cell. -/
lemma followTaskActions_cons (unit a : String) (rest : List String) :
    followTaskActions unit (a :: rest) =
      Action.AppendLogLine unit a :: Action.Render ::
        followTaskActions unit rest := rfl

/-- The follow task sends two actions per received line. -/
lemma followTaskActions_length (unit : String) (ls : List String) :
    (followTaskActions unit ls).length = 2 * ls.length := by
  induction ls with
  | nil => rfl
  | cons a rest ih =>
    rw [followTaskActions_cons]
    simp [ih]
    omega

/-- The i-th received line yields an AppendLogLine at position 2i immediately
followed by a Render at position 2i + 1. -/
lemma followTaskActions_get (unit : String) (ls : List String) :
    ∀ i l, ls.get? i = some l →
      (followTaskActions unit ls).get? (2 * i) =
        some (Action.AppendLogLine unit l) ∧
      (followTaskActions unit ls).get? (2 * i + 1) = some Action.Render := by
  induction ls with
  | nil => intro i l h; simp at h
  | cons a rest ih =>
    intro i l h
    cases i with
    | zero =>
      have ha : a = l := by simpa using h
      subst ha
      exact ⟨rfl, rfl⟩
    | succ j =>
      have hj : rest.get? j = some l := by simpa using h
      have hrec := ih j l hj
      have e1 : 2 * (j + 1) = 2 * j + 1 + 1 := by ring
      have e2 : 2 * (j + 1) + 1 = 2 * j + 1 + 1 + 1 := by ring
      constructor
      · rw [followTaskActions_cons, e1, List.get?_cons_succ, List.get?_cons_succ]
        exact hrec.1
      · rw [followTaskActions_cons, e2, List.get?_cons_succ, List.get?_cons_succ]
        exact hrec.2

/-- The drain loop keeps the most recent request: the last pending one, or
the blocking receive when nothing else was pending. -/
lemma drainAll_fst (first : String) (pending : List String) :
    (drainAll first pending).1 = pending.getLast?.getD first := by
  induction pending generalizing first with
  | nil => rfl
  | cons a rest ih =>
    show (drainAll a rest).1 = (a :: rest).getLast?.getD first
    rw [ih a]
    cases rest with
    | nil => rfl
    | cons b bs =>
      rw [List.getLast?_cons_cons]
      obtain ⟨x, hx⟩ := Option.isSome_iff_exists.mp
        (List.getLast?_isSome.mpr (by simp : (b :: bs) ≠ []))
      rw [hx]
      rfl

/-- The unit a supervisor iteration commits to: the most recently requested
one. -/
def supUnit (it : LogIter) : String :=
  it.pending.getLast?.getD it.firstUnit

/-- C2 as a predicate, for an iteration whose batch fetch returned `out`: the
iteration's effects are exactly drain traces (no other side effects for the
skipped intermediate requests), the abort of the previous follow task when
one was stored, a single bounded batch fetch of 500 lines for the most
recently requested unit followed by its SetLogs and a Render, and the spawn
of exactly one fresh follow task whose handle replaces the old one — so
afterwards exactly one follow task is active — while the spawned follow task
emits one AppendLogLine and one Render per received line. -/
def c2Spec (st : SupervisorState) (it : LogIter) (out : String) : Prop :=
  (superviseStep st it).2 =
      (drainAll it.firstUnit it.pending).2.map SupEffect.logInfo ++
      (match st.lastFollowHandle with
       | some h => [SupEffect.logInfo "Cancelling previous journalctl task",
                    SupEffect.abortTask h]
       | none => []) ++
      [SupEffect.runBatchFetch (supUnit it) 500,
       SupEffect.sendAction (.SetLogs (supUnit it) (out.splitOn "\n")),
       SupEffect.sendAction .Render,
       SupEffect.spawnFollow st.nextId (supUnit it)] ∧
  (superviseStep st it).1.active = [st.nextId] ∧
  (superviseStep st it).1.lastFollowHandle = some st.nextId ∧
  (∀ v n, SupEffect.runBatchFetch v n ∈ (superviseStep st it).2 →
    v = supUnit it ∧ n = 500) ∧
  (followTaskActions (supUnit it) it.streamLines).length =
    2 * it.streamLines.length ∧
  (∀ i l, it.streamLines.get? i = some l →
    (followTaskActions (supUnit it) it.streamLines).get? (2 * i) =
      some (Action.AppendLogLine (supUnit it) l) ∧
    (followTaskActions (supUnit it) it.streamLines).get? (2 * i + 1) =
      some Action.Render)

/-- C2: for every accepted log-follow request whose batch fetch succeeds,
the supervisor keeps only the most recently requested unit from the drained
channel, aborts the previous follow task before spawning the new one, fetches
a 500-line bounded batch and emits SetLogs then Render for that unit, and
spawns exactly one new follow task (one AppendLogLine plus one Render per
streamed line), preserving the at-most-one-active-follow-task invariant. -/
theorem c2_log_tail_supervisor (st : SupervisorState) (it : LogIter)
    (out : String) (hok : it.fetchResult = Except.ok out)
    (hwf : st.active = st.lastFollowHandle.toList) : c2Spec st it out := by
  unfold c2Spec
  cases hh : st.lastFollowHandle with
  | none =>
    have hact : st.active = [] := by rw [hwf, hh]; rfl
    have heffs : (superviseStep st it).2 =
        (drainAll it.firstUnit it.pending).2.map SupEffect.logInfo ++
        [SupEffect.runBatchFetch (supUnit it) 500,
         SupEffect.sendAction (.SetLogs (supUnit it) (out.splitOn "\n")),
         SupEffect.sendAction .Render,
         SupEffect.spawnFollow st.nextId (supUnit it)] := by
      simp [superviseStep, hok, hh, drainAll_fst, supUnit]
    refine ⟨?_, ?_, ?_, ?_,
      followTaskActions_length (supUnit it) it.streamLines,
      followTaskActions_get (supUnit it) it.streamLines⟩
    · rw [heffs]
      simp
    · simp [superviseStep, hh, hact]
    · simp [superviseStep]
    · intro v n hv
      rw [heffs] at hv
      simp at hv
      exact hv
  | some hprev =>
    have hact : st.active = [hprev] := by rw [hwf, hh]; rfl
    have heffs : (superviseStep st it).2 =
        (drainAll it.firstUnit it.pending).2.map SupEffect.logInfo ++
        ([SupEffect.logInfo "Cancelling previous journalctl task",
          SupEffect.abortTask hprev] ++
         [SupEffect.runBatchFetch (supUnit it) 500,
          SupEffect.sendAction (.SetLogs (supUnit it) (out.splitOn "\n")),
          SupEffect.sendAction .Render,
          SupEffect.spawnFollow st.nextId (supUnit it)]) := by
      simp [superviseStep, hok, hh, drainAll_fst, supUnit]
    refine ⟨?_, ?_, ?_, ?_,
      followTaskActions_length (supUnit it) it.streamLines,
      followTaskActions_get (supUnit it) it.streamLines⟩
    · rw [heffs]
      simp
    · simp [superviseStep, hh, hact]
    · simp [superviseStep]
    · intro v n hv
      rw [heffs] at hv
      simp at hv
      exact hv

/-- Concrete supervisor state holding one active follow task with handle 3. -/
def supStateOne : SupervisorState := ⟨5, [3], some 3⟩

/-- Concrete iteration inputs: request a, then pending b and c, batch stdout
of two lines, then two streamed lines. -/
def logIterBC : LogIter :=
  ⟨"a.service", ["b.service", "c.service"], Except.ok "l1\nl2", ["x", "y"]⟩

/-- Witness for C2 at concrete supervisor inputs. -/
theorem c2_witness : c2Spec supStateOne logIterBC "l1\nl2" :=
  c2_log_tail_supervisor supStateOne logIterBC "l1\nl2" rfl rfl

end Stui
